import Mathlib

/-!
Shallow embedding of the rule-driven validation engine in
src/validation-framework/src/validation-engine.js, together with proofs
settling the frozen claims about its specification.

Modelling conventions for the JavaScript source:

* A record ("dataset") is an association list from field name to scalar
  value, in object-insertion order.
* JavaScript numbers are modelled as an inductive type with NaN, the two
  infinities and finite exact decimals (an integer numerator over a
  power-of-ten denominator).  All numeric values the engine ever builds
  are such decimals, and on them this arithmetic agrees exactly with
  IEEE doubles for every claim-relevant computation.
* Exceptions escaping a function are modelled with the Except monad: the
  only statements of the source that can throw out of validate are the
  RegExp constructor calls (on a wildcard-derived target pattern, on a
  configured format pattern, and inside evaluateTargetCondition);
  new URL and the legacy expression evaluator are wrapped in local
  try/catch by the source and never propagate.
* Regular-expression compilation success and match outcomes, and URL
  parsing success, are implementation primitives of the host; the engine
  is parameterised over them (structure JsEnv).  No claim depends on a
  match outcome; claim C1 depends on compilation failure, for which a
  concrete checker of the unmatched-group-syntax condition is provided.
* Date parsing models the ECMA-262 date-time string format in its
  date-only forms (YYYY, YYYY-MM, YYYY-MM-DD); other strings are treated
  as invalid dates.  Parsing of non-ISO strings is implementation-defined
  in the host language and no claim depends on it.
-/

/-- A finite JavaScript number represented as an exact fraction
numerator over denominator; every value the engine constructs has a
power-of-ten denominator.  The representation is not normalised; value
comparisons go through cross multiplication. -/
structure Dec10 where
  num : Int
  den : ℕ
deriving DecidableEq

/-- A JavaScript number: NaN, one of the infinities, or a finite value. -/
inductive JNum where
  | nan
  | posInf
  | negInf
  | fin (q : Dec10)
deriving DecidableEq

/-- The finite JavaScript number given by an integer. -/
def jint (n : Int) : JNum := .fin ⟨n, 1⟩

/-- Value-level less-than on finite representations. -/
def Dec10.vlt (a b : Dec10) : Bool := a.num * (b.den : Int) < b.num * (a.den : Int)

/-- Value-level less-or-equal on finite representations. -/
def Dec10.vle (a b : Dec10) : Bool := a.num * (b.den : Int) ≤ b.num * (a.den : Int)

/-- Value-level equality on finite representations. -/
def Dec10.veq (a b : Dec10) : Bool := a.num * (b.den : Int) = b.num * (a.den : Int)

/-- Exact addition on finite representations. -/
def Dec10.vadd (a b : Dec10) : Dec10 :=
  ⟨a.num * (b.den : Int) + b.num * (a.den : Int), a.den * b.den⟩

/-- Strict less-than on JavaScript numbers: any comparison with NaN is false. -/
def JNum.lt : JNum → JNum → Bool
  | .nan, _ => false
  | _, .nan => false
  | .negInf, .negInf => false
  | .negInf, _ => true
  | _, .negInf => false
  | .posInf, _ => false
  | .fin _, .posInf => true
  | .fin a, .fin b => a.vlt b

/-- Less-or-equal on JavaScript numbers: any comparison with NaN is false. -/
def JNum.le : JNum → JNum → Bool
  | .nan, _ => false
  | _, .nan => false
  | .negInf, _ => true
  | _, .negInf => false
  | _, .posInf => true
  | .posInf, .fin _ => false
  | .fin a, .fin b => a.vle b

/-- Numeric equality as used by both loose and strict JavaScript equality
on numbers: NaN is equal to nothing, including itself. -/
def JNum.jeq : JNum → JNum → Bool
  | .nan, _ => false
  | _, .nan => false
  | .posInf, .posInf => true
  | .negInf, .negInf => true
  | .fin a, .fin b => a.veq b
  | _, _ => false

/-- Addition on JavaScript numbers. -/
def JNum.add : JNum → JNum → JNum
  | .nan, _ => .nan
  | _, .nan => .nan
  | .posInf, .negInf => .nan
  | .negInf, .posInf => .nan
  | .posInf, _ => .posInf
  | _, .posInf => .posInf
  | .negInf, _ => .negInf
  | _, .negInf => .negInf
  | .fin a, .fin b => .fin (a.vadd b)

/-- A JavaScript scalar value as it can occur in a record or in a rule
configuration: string, number, boolean, null or undefined. -/
inductive JsValue where
  | str (s : String)
  | num (n : JNum)
  | bool (b : Bool)
  | null
  | undefined
deriving DecidableEq

/-- Characters trimmed by JavaScript string trimming and by the whitespace
skipping of string-to-number conversion (the common white-space and line
terminator code points). -/
def isJsWhite (c : Char) : Bool :=
  c = ' ' ∨ c = '\t' ∨ c = '\n' ∨ c = '\r' ∨ c = '\x0b' ∨ c = '\x0c' ∨
  c = ' ' ∨ c = '﻿'

/-- Trim JavaScript whitespace from both ends of a character list. -/
def jsTrimChars (cs : List Char) : List Char :=
  ((cs.dropWhile isJsWhite).reverse.dropWhile isJsWhite).reverse

/-- Trim JavaScript whitespace from both ends of a string (String.prototype.trim). -/
def jsTrim (s : String) : String :=
  String.mk (jsTrimChars s.data)

/-- Decimal digit value of a character (only meaningful for digits). -/
def digitVal (c : Char) : ℕ := c.toNat - 48

/-- Consume a run of leading decimal digits, returning the accumulated
value, the number of digits consumed and the rest of the input. -/
def takeDigitsAux (acc : ℕ) (n : ℕ) : List Char → ℕ × ℕ × List Char
  | [] => (acc, n, [])
  | c :: cs =>
    if c.isDigit then takeDigitsAux (acc * 10 + digitVal c) (n + 1) cs
    else (acc, n, c :: cs)

/-- Hexadecimal digit value of a character, if it is one. -/
def hexVal (c : Char) : Option ℕ :=
  if c.isDigit then some (digitVal c)
  else if 'a' ≤ c ∧ c ≤ 'f' then some (c.toNat - 87)
  else if 'A' ≤ c ∧ c ≤ 'F' then some (c.toNat - 55)
  else none

/-- Parse a full run of digits in the given base via a digit-value reader;
fails on an empty run or a non-digit character. -/
def parseRadixAux (dv : Char → Option ℕ) (base : ℕ) (acc : ℕ) (n : ℕ) :
    List Char → Option ℕ
  | [] => if n = 0 then none else some acc
  | c :: cs =>
    match dv c with
    | some v => parseRadixAux dv base (acc * base + v) (n + 1) cs
    | none => none

/-- Parse the optional exponent tail of a decimal numeric literal;
the empty tail yields exponent zero, anything malformed fails. -/
def parseExpPart : List Char → Option Int
  | [] => some 0
  | c :: cs =>
    if c = 'e' ∨ c = 'E' then
      let sr : Int × List Char :=
        match cs with
        | '+' :: r => (1, r)
        | '-' :: r => (-1, r)
        | r => (1, r)
      match takeDigitsAux 0 0 sr.2 with
      | (v, n, rest) => if n = 0 ∨ rest ≠ [] then none else some (sr.1 * v)
    else none

/-- Scale a finite representation by a signed power of ten. -/
def applyExp (q : Dec10) (e : Int) : Dec10 :=
  if 0 ≤ e then ⟨q.num * (10 : Int) ^ e.toNat, q.den⟩
  else ⟨q.num, q.den * 10 ^ (-e).toNat⟩

/-- Parse an unsigned decimal numeric literal (digits, optional fraction,
optional exponent), consuming the whole input. -/
def parseUnsignedDec (cs : List Char) : Option Dec10 :=
  match takeDigitsAux 0 0 cs with
  | (ip, ni, r1) =>
    match r1 with
    | '.' :: r2 =>
      match takeDigitsAux 0 0 r2 with
      | (fp, nf, r3) =>
        if ni = 0 ∧ nf = 0 then none
        else
          match parseExpPart r3 with
          | some e => some (applyExp ⟨(ip * 10 ^ nf + fp : ℕ), 10 ^ nf⟩ e)
          | none => none
    | _ =>
      if ni = 0 then none
      else
        match parseExpPart r1 with
        | some e => some (applyExp ⟨(ip : ℕ), 1⟩ e)
        | none => none

/-- Negate a finite representation when the parsed sign was negative. -/
def applySign (sgn : Int) (q : Dec10) : Dec10 :=
  ⟨sgn * q.num, q.den⟩

/-- JavaScript string-to-number conversion (the ToNumber operation applied
to a string): trimmed empty input is zero, signed Infinity, decimal
literals, and unsigned hexadecimal, octal and binary literals; everything
else is NaN. -/
def jsStrToNumber (s : String) : JNum :=
  match jsTrimChars s.data with
  | [] => .fin ⟨0, 1⟩
  | c0 :: cs0 =>
    if c0 = '0' ∧ (cs0.head? = some 'x' ∨ cs0.head? = some 'X') then
      match parseRadixAux hexVal 16 0 0 (cs0.drop 1) with
      | some v => .fin ⟨(v : ℕ), 1⟩
      | none => .nan
    else if c0 = '0' ∧ (cs0.head? = some 'o' ∨ cs0.head? = some 'O') then
      match parseRadixAux (fun c => if '0' ≤ c ∧ c ≤ '7' then some (digitVal c) else none) 8 0 0 (cs0.drop 1) with
      | some v => .fin ⟨(v : ℕ), 1⟩
      | none => .nan
    else if c0 = '0' ∧ (cs0.head? = some 'b' ∨ cs0.head? = some 'B') then
      match parseRadixAux (fun c => if c = '0' ∨ c = '1' then some (digitVal c) else none) 2 0 0 (cs0.drop 1) with
      | some v => .fin ⟨(v : ℕ), 1⟩
      | none => .nan
    else
      let sr : Int × List Char :=
        match c0 :: cs0 with
        | '+' :: r => (1, r)
        | '-' :: r => (-1, r)
        | r => (1, r)
      if sr.2 = ['I', 'n', 'f', 'i', 'n', 'i', 't', 'y'] then
        if sr.1 = 1 then .posInf else .negInf
      else
        match parseUnsignedDec sr.2 with
        | some q => .fin (applySign sr.1 q)
        | none => .nan

/-- JavaScript ToNumber on a scalar value. -/
def jsToNumber : JsValue → JNum
  | .str s => jsStrToNumber s
  | .num n => n
  | .bool b => .fin ⟨if b then 1 else 0, 1⟩
  | .null => .fin ⟨0, 1⟩
  | .undefined => .nan

/-- Decimal digits of the fractional part of a nonnegative value, to a
bounded depth; exact for every power-of-ten denominator the engine
constructs. -/
def fracDigits : ℕ → ℕ → ℕ → List Char
  | 0, _, _ => []
  | _ + 1, _, 0 => []
  | fuel + 1, den, rem =>
    let d := rem * 10 / den
    Char.ofNat (48 + d) :: fracDigits fuel den (rem * 10 % den)

/-- Render a finite JavaScript number as a decimal string, as JavaScript
number-to-string conversion does for every claim-relevant value. -/
def finToString (q : Dec10) : String :=
  let sign := if q.num < 0 then "-" else ""
  let a : ℕ := q.num.natAbs
  let ip : ℕ := a / q.den
  let rem : ℕ := a % q.den
  if rem = 0 then sign ++ Nat.repr ip
  else sign ++ Nat.repr ip ++ "." ++ String.mk (fracDigits 40 q.den rem)

/-- JavaScript number-to-string conversion. -/
def jnToString : JNum → String
  | .nan => "NaN"
  | .posInf => "Infinity"
  | .negInf => "-Infinity"
  | .fin q => finToString q

/-- JavaScript ToString on a scalar value. -/
def jsToString : JsValue → String
  | .str s => s
  | .num n => jnToString n
  | .bool b => if b then "true" else "false"
  | .null => "null"
  | .undefined => "undefined"

/-- JavaScript truthiness of a scalar value. -/
def jsTruthy : JsValue → Bool
  | .str s => decide (s ≠ "")
  | .num .nan => false
  | .num (.fin q) => decide (q.num ≠ 0)
  | .num _ => true
  | .bool b => b
  | .null => false
  | .undefined => false

/-- JavaScript loose equality (the == operator) restricted to scalar
values, following the Abstract Equality Comparison algorithm. -/
def jsLooseEq : JsValue → JsValue → Bool
  | .str a, .str b => decide (a = b)
  | .num a, .num b => JNum.jeq a b
  | .bool a, .bool b => decide (a = b)
  | .null, .null => true
  | .null, .undefined => true
  | .undefined, .null => true
  | .undefined, .undefined => true
  | .num a, .str s => JNum.jeq a (jsStrToNumber s)
  | .str s, .num b => JNum.jeq (jsStrToNumber s) b
  | .bool a, .str s => JNum.jeq (.fin ⟨if a then 1 else 0, 1⟩) (jsStrToNumber s)
  | .str s, .bool b => JNum.jeq (jsStrToNumber s) (.fin ⟨if b then 1 else 0, 1⟩)
  | .bool a, .num b => JNum.jeq (.fin ⟨if a then 1 else 0, 1⟩) b
  | .num a, .bool b => JNum.jeq a (.fin ⟨if b then 1 else 0, 1⟩)
  | _, _ => false

/-- JavaScript strict equality (the === operator) restricted to scalar
values: same type and same value, with NaN unequal to itself. -/
def jsStrictEq : JsValue → JsValue → Bool
  | .str a, .str b => decide (a = b)
  | .num a, .num b => JNum.jeq a b
  | .bool a, .bool b => decide (a = b)
  | .null, .null => true
  | .undefined, .undefined => true
  | _, _ => false

/-- Whether a year is a leap year of the proleptic Gregorian calendar. -/
def isLeapYear (y : ℕ) : Bool :=
  (y % 4 = 0 ∧ y % 100 ≠ 0) ∨ y % 400 = 0

/-- Number of days of a month (1-12) of a given year. -/
def daysInMonth (y m : ℕ) : ℕ :=
  if m = 2 then (if isLeapYear y then 29 else 28)
  else if m = 4 ∨ m = 6 ∨ m = 9 ∨ m = 11 then 30
  else 31

/-- Days from the Unix epoch to a given calendar date (Julian day number
arithmetic). -/
def daysFromEpoch (y m d : ℕ) : Int :=
  let a := (14 - m) / 12
  let y2 := y + 4800 - a
  let m2 := m + 12 * a - 3
  (d : Int) + ((153 * m2 + 2) / 5 : ℕ) + 365 * (y2 : Int) +
    ((y2 / 4 : ℕ) : Int) - ((y2 / 100 : ℕ) : Int) + ((y2 / 400 : ℕ) : Int) - 32045 - 2440588

/-- Parse the date-only forms of the ECMA-262 date-time string format
(YYYY, YYYY-MM, YYYY-MM-DD) to milliseconds since the Unix epoch; every
other string is treated as an invalid date (parsing of such strings is
implementation-defined in the host and no claim depends on it). -/
def jsDateParse (s : String) : Option Int :=
  let mk : ℕ → ℕ → ℕ → Option Int := fun y m d =>
    if 1 ≤ m ∧ m ≤ 12 ∧ 1 ≤ d ∧ d ≤ daysInMonth y m then
      some (86400000 * daysFromEpoch y m d)
    else none
  match s.data with
  | [a, b, c, d] =>
    if [a, b, c, d].all Char.isDigit then
      mk (digitVal a * 1000 + digitVal b * 100 + digitVal c * 10 + digitVal d) 1 1
    else none
  | [a, b, c, d, '-', e, f] =>
    if [a, b, c, d, e, f].all Char.isDigit then
      mk (digitVal a * 1000 + digitVal b * 100 + digitVal c * 10 + digitVal d)
        (digitVal e * 10 + digitVal f) 1
    else none
  | [a, b, c, d, '-', e, f, '-', g, h] =>
    if [a, b, c, d, e, f, g, h].all Char.isDigit then
      mk (digitVal a * 1000 + digitVal b * 100 + digitVal c * 10 + digitVal d)
        (digitVal e * 10 + digitVal f) (digitVal g * 10 + digitVal h)
    else none
  | _ => none

/-- The isValidDate helper of the engine: only strings can be valid dates,
and a string is one exactly when Date parsing yields a valid time value. -/
def jsDateValue : JsValue → Option Int
  | .str s => jsDateParse s
  | _ => none

/-- Whether the pattern list occurs as a contiguous sublist (the
String.prototype.includes test on character lists). -/
def listHasSub (pat : List Char) : List Char → Bool
  | [] => decide (pat = [])
  | c :: cs => pat.isPrefixOf (c :: cs) || listHasSub pat cs

/-- JavaScript String.prototype.includes. -/
def strIncludes (s pat : String) : Bool := listHasSub pat.data s.data

/-- JavaScript String.prototype.startsWith. -/
def strStartsWith (s pat : String) : Bool := pat.data.isPrefixOf s.data

/-- JavaScript String.prototype.endsWith. -/
def strEndsWith (s pat : String) : Bool := pat.data.isSuffixOf s.data

/-- Fuelled worker for splitting on a separator occurrence by occurrence. -/
def splitOnAux (sep : List Char) : ℕ → List Char → List Char → List (List Char)
  | 0, xs, acc => [acc.reverse ++ xs]
  | _ + 1, [], acc => [acc.reverse]
  | fuel + 1, x :: xs, acc =>
    if sep ≠ [] ∧ sep.isPrefixOf (x :: xs) then
      acc.reverse :: splitOnAux sep fuel ((x :: xs).drop sep.length) []
    else splitOnAux sep fuel xs (x :: acc)

/-- JavaScript String.prototype.split with a non-empty string separator. -/
def jsSplit (s sep : String) : List String :=
  (splitOnAux sep.data (s.data.length + 1) s.data []).map String.mk

/-- The trimmed second element of a split, i.e. the right operand the
legacy expression evaluator destructures out of an expression string. -/
def rightOperand (expr sep : String) : String :=
  match jsSplit expr sep with
  | _ :: r :: _ => jsTrim r
  | _ => ""

/-- The host-language primitives the engine depends on: whether a regular
expression source compiles (the RegExp constructor does not throw),
whether a compiled regular expression matches a string (RegExp test,
including the flags the source uses), and whether a string is a
well-formed absolute URL (the URL constructor does not throw).  Theorems
quantify over this structure wherever the claims do not depend on the
host behaviour. -/
structure JsEnv where
  regexCompiles : String → Bool
  regexTest : String → String → Bool
  urlOk : String → Bool

/-- A trivial environment instantiation used by concrete witnesses whose
claims hold for every environment. -/
def envTriv : JsEnv :=
  { regexCompiles := fun _ => true, regexTest := fun _ _ => true, urlOk := fun _ => true }

/-- Scanner deciding the group/class well-formedness of a regular
expression source: backslash escapes, character classes, and balanced
group parentheses.  ECMA-262 rejects a pattern with an unmatched group
parenthesis, which is the only compilation failure any claim exercises. -/
def regexScanAux : List Char → ℕ → Bool → Bool
  | [], depth, inClass => decide (depth = 0) && !inClass
  | '\\' :: rest, d, ic =>
    match rest with
    | [] => false
    | _ :: r2 => regexScanAux r2 d ic
  | '[' :: r, d, _ => regexScanAux r d true
  | ']' :: r, d, _ => regexScanAux r d false
  | '(' :: r, d, ic => if ic then regexScanAux r d ic else regexScanAux r (d + 1) ic
  | ')' :: r, d, ic =>
    if ic then regexScanAux r d ic
    else if d = 0 then false else regexScanAux r (d - 1) ic
  | _ :: r, d, ic => regexScanAux r d ic

/-- Concrete model of RegExp compilation success, agreeing with the host
on every pattern this development evaluates: a pattern with an unmatched
group parenthesis is a SyntaxError. -/
def jsRegexCompilesModel (s : String) : Bool := regexScanAux s.data 0 false

/-- A concrete environment whose compilation check is the group-balance
scanner; matching and URL outcomes are immaterial to the claims that use
this environment. -/
def envModel : JsEnv :=
  { regexCompiles := jsRegexCompilesModel, regexTest := fun _ _ => true, urlOk := fun _ => true }

/-- A record (the source calls it a dataset): field names mapped to scalar
values, in object-insertion order. -/
abbrev Dataset := List (String × JsValue)

/-- Property access dataset[field]: the stored value, or undefined when
the field is absent. -/
def lookupField (ds : Dataset) (k : String) : JsValue :=
  match ds.find? (fun p => p.1 == k) with
  | some p => p.2
  | none => .undefined

/-- The hasOwnProperty test of the source. -/
def hasField (ds : Dataset) (k : String) : Bool :=
  (ds.find? (fun p => p.1 == k)).isSome

/-- Whether a string is an array-index property key (the canonical decimal
form of an integer below 2 to the 32 minus one); ECMA-262 enumerates such
keys first, in ascending numeric order. -/
def isArrayIndexKey (s : String) : Bool :=
  match s.data with
  | [] => false
  | ['0'] => true
  | c :: cs =>
    c.isDigit && decide (c ≠ '0') && cs.all Char.isDigit &&
      decide ((c :: cs).foldl (fun a d => a * 10 + digitVal d) 0 < 4294967295)

/-- Numeric value of an array-index key. -/
def indexKeyVal (s : String) : ℕ := s.data.foldl (fun a d => a * 10 + digitVal d) 0

/-- Insert a key into a list of index keys sorted by numeric value. -/
def insertIdxKey (k : String) : List String → List String
  | [] => [k]
  | x :: xs => if indexKeyVal k ≤ indexKeyVal x then k :: x :: xs else x :: insertIdxKey k xs

/-- The own-enumerable-key order of Object.keys and for-in: array-index
keys in ascending numeric order first, then the remaining string keys in
insertion order. -/
def jsObjectKeys (ds : Dataset) : List String :=
  let ks := ds.map Prod.fst
  (ks.filter isArrayIndexKey).foldr insertIdxKey [] ++
    ks.filter (fun k => !isArrayIndexKey k)

/-- The rule target object: the field pattern the rule applies to. -/
structure RuleTarget where
  field : String
deriving DecidableEq

/-- A target condition of a conditional cross-field rule (the
targetCondition object of the source), with its optional keys. -/
structure TargetCondition where
  type : Option String := none
  message : Option String := none
  pattern : Option String := none
  min : Option JNum := none
  max : Option JNum := none
deriving DecidableEq

/-- The configuration object of a rule, holding the optional keys
documented for every rule kind; a key that is absent in the JSON object
is None (JavaScript undefined). -/
structure RuleConfiguration where
  dataType : Option String := none
  pattern : Option String := none
  min : Option JNum := none
  max : Option JNum := none
  inclusive : Option Bool := none
  required : Option Bool := none
  notEmpty : Option Bool := none
  minLength : Option JNum := none
  type : Option String := none
  dependentField : Option String := none
  condition : Option String := none
  conditionField : Option String := none
  conditionValue : Option JsValue := none
  conditionOperator : Option String := none
  targetField : Option String := none
  targetCondition : Option TargetCondition := none
  requiredValue : Option JsValue := none
  field1 : Option String := none
  field2 : Option String := none
  comparisonOperator : Option String := none
  expectedSum : Option JsValue := none
  businessRule : Option String := none
deriving DecidableEq

/-- A rule definition as the engine consumes it.  The configuration is an
object whenever the rule conforms to the RuleDefinition shape, so the
falsy-configuration guard of validateCrossField never fires in the model. -/
structure RuleDefinition where
  id : String
  name : String
  ruleType : String
  target : RuleTarget
  configuration : RuleConfiguration
  severity : Option String := none
  enabled : Option Bool := none
deriving DecidableEq

/-- The passed/message pair every validator returns; a missing message key
is None (JavaScript undefined). -/
structure VOut where
  passed : Bool
  message : Option String := none
deriving DecidableEq

/-- One entry of the engine's results array. -/
structure ValidationResult where
  ruleId : String
  ruleName : String
  field : String
  value : JsValue
  severity : String
  message : Option String
  passed : Bool
deriving DecidableEq

/-- JavaScript falsiness of an optional string: absent (undefined) or the
empty string. -/
def optStrFalsy : Option String → Bool
  | none => true
  | some s => decide (s = "")

/-- The JavaScript or-with-default idiom (x || d) on an optional string. -/
def jsOrDefault (o : Option String) (d : String) : String :=
  match o with
  | some s => if s = "" then d else s
  | none => d

/-- Template-literal interpolation of a possibly undefined string. -/
def optTemplate : Option String → String
  | some s => s
  | none => "undefined"

/-- The checkDataType helper: built-in type checkers for email, phone,
url, number and date; unknown types pass. -/
def checkDataType (env : JsEnv) (value : String) (dataType : String) : VOut :=
  if dataType = "email" then
    { passed := env.regexTest "^[a-zA-Z0-9._%+-]+@[a-zA-Z0-9.-]+\\.[a-zA-Z]\x7b2,\x7d$" value,
      message := some ("Value \x27" ++ value ++ "\x27 is not a valid email address") }
  else if dataType = "phone" then
    { passed := env.regexTest "^\\(?(\\d\x7b3\x7d)\\)?[-.\\s]?(\\d\x7b3\x7d)[-.\\s]?(\\d\x7b4\x7d)$" value,
      message := some ("Value \x27" ++ value ++ "\x27 is not a valid phone number") }
  else if dataType = "url" then
    if env.urlOk value then { passed := true }
    else { passed := false, message := some ("Value \x27" ++ value ++ "\x27 is not a valid URL") }
  else if dataType = "number" then
    { passed := decide (jsStrToNumber value ≠ .nan),
      message := some ("Value \x27" ++ value ++ "\x27 is not a valid number") }
  else if dataType = "date" then
    { passed := (jsDateParse value).isSome,
      message := some ("Value \x27" ++ value ++ "\x27 is not a valid date") }
  else { passed := true }

/-- The validateFormat validator.  The RegExp constructor on the
configured pattern is the one statement that can throw. -/
def validateFormat (env : JsEnv) (cfg : RuleConfiguration) (v : JsValue) :
    Except String VOut :=
  if v = .undefined ∨ v = .null then .ok { passed := true }
  else
    let stringValue := jsToString v
    let typeStep : VOut :=
      match cfg.dataType with
      | some dt => if dt = "" then { passed := true } else checkDataType env stringValue dt
      | none => { passed := true }
    if typeStep.passed = false then .ok typeStep
    else
      match cfg.pattern with
      | some p =>
        if p = "" then .ok { passed := true }
        else if env.regexCompiles p then
          if env.regexTest p stringValue then .ok { passed := true }
          else .ok { passed := false,
                     message := some ("Value \x27" ++ stringValue ++ "\x27 does not match required format pattern") }
        else .error ("SyntaxError: Invalid regular expression: " ++ p)
      | none => .ok { passed := true }

/-- The non-numeric failure message of the range validator. -/
def nonNumericRangeMsg (v : JsValue) : String :=
  "Value \x27" ++ jsToString v ++ "\x27 is not a valid number for range validation"

/-- The bound checks of the range validator after numeric coercion
succeeded: min first, then max only while still passing (lines 238-259 of
the source). -/
def rangeBounds (cfg : RuleConfiguration) (n : JNum) : VOut :=
  let inclusive := cfg.inclusive ≠ some false
  let step1 : Bool × String :=
    match cfg.min with
    | none => (true, "")
    | some m =>
      if (if inclusive then JNum.lt n m else JNum.le n m) then
        (false, "Value " ++ jnToString n ++ " is below minimum " ++
          (if inclusive then "" else "exclusive ") ++ "limit of " ++ jnToString m)
      else (true, "")
  let step2 : Bool × String :=
    match cfg.max with
    | none => step1
    | some mx =>
      if step1.1 ∧ (if inclusive then JNum.lt mx n else JNum.le mx n) then
        (false, "Value " ++ jnToString n ++ " is above maximum " ++
          (if inclusive then "" else "exclusive ") ++ "limit of " ++ jnToString mx)
      else step1
  { passed := step2.1, message := some step2.2 }

/-- The validateRange validator. -/
def validateRange (cfg : RuleConfiguration) (v : JsValue) : VOut :=
  if v = .undefined ∨ v = .null then { passed := true }
  else
    let numValue := jsToNumber v
    if numValue = .nan then { passed := false, message := some (nonNumericRangeMsg v) }
    else rangeBounds cfg numValue

/-- The validateCompleteness validator: required, then notEmpty, then
minLength, in source order with early returns. -/
def validateCompleteness (cfg : RuleConfiguration) (v : JsValue) : VOut :=
  if cfg.required = some true ∧ (v = .undefined ∨ v = .null) then
    { passed := false, message := some "Required field is missing" }
  else if cfg.notEmpty = some true ∧ (v = .undefined ∨ v = .null ∨ jsTrim (jsToString v) = "") then
    { passed := false, message := some "Field must not be empty" }
  else
    match cfg.minLength with
    | some n =>
      if v = .undefined ∨ v = .null then { passed := true }
      else
        let stringValue := jsToString v
        if JNum.lt (jint (stringValue.length : Int)) n then
          { passed := false,
            message := some ("Field length " ++ Nat.repr stringValue.length ++
              " is below minimum required length of " ++ jnToString n) }
        else { passed := true }
    | none => { passed := true }

/-- The validateUniqueness validator: counts via for-in enumeration how
many fields of the record hold a strictly equal value. -/
def validateUniqueness (v : JsValue) (ds : Dataset) : VOut :=
  if v = .undefined ∨ v = .null then { passed := true }
  else
    let count := ((jsObjectKeys ds).filter (fun f => jsStrictEq (lookupField ds f) v)).length
    if count > 1 then
      { passed := false,
        message := some ("Value \x27" ++ jsToString v ++ "\x27 is not unique within the dataset") }
    else { passed := true }

/-- Resolve the right operand of a legacy expression: a value enclosed in
braces is a field reference into the record, anything else is a literal. -/
def resolveValue (s : String) (ds : Dataset) : JsValue :=
  match s.data with
  | c :: cs =>
    if c = '\x7b' ∧ (c :: cs).getLast? = some '\x7d' then
      lookupField ds (String.mk ((cs).dropLast))
    else .str s
  | [] => .str s

/-- The evaluateExpression helper of the legacy cross-field mode: the
first operator substring found among the seven recognised ones (in source
order) selects the comparison; an operator-free string falls through to
its own truthiness. -/
def evaluateExpression (expr : String) (dependentValue : JsValue) (ds : Dataset) : Bool :=
  if strIncludes expr "==" then
    jsLooseEq dependentValue (resolveValue (rightOperand expr "==") ds)
  else if strIncludes expr "!=" then
    !jsLooseEq dependentValue (resolveValue (rightOperand expr "!=") ds)
  else if strIncludes expr ">=" then
    JNum.le (jsToNumber (resolveValue (rightOperand expr ">=") ds)) (jsToNumber dependentValue)
  else if strIncludes expr "<=" then
    JNum.le (jsToNumber dependentValue) (jsToNumber (resolveValue (rightOperand expr "<=") ds))
  else if strIncludes expr ">" then
    JNum.lt (jsToNumber (resolveValue (rightOperand expr ">") ds)) (jsToNumber dependentValue)
  else if strIncludes expr "<" then
    JNum.lt (jsToNumber dependentValue) (jsToNumber (resolveValue (rightOperand expr "<") ds))
  else if strIncludes expr "includes" then
    strIncludes (jsToString dependentValue) (jsToString (resolveValue (rightOperand expr "includes") ds))
  else decide (expr ≠ "")

/-- The validateLegacyCrossField validator.  The expression evaluator of
the model is total, so the local catch branch of the source is
unreachable; a false condition yields a result with no message key. -/
def validateLegacyCrossField (cfg : RuleConfiguration) (ds : Dataset) : VOut :=
  if optStrFalsy cfg.dependentField ∨ optStrFalsy cfg.condition then { passed := true }
  else
    let dependentValue := lookupField ds (cfg.dependentField.getD "")
    { passed := evaluateExpression (cfg.condition.getD "") dependentValue ds }

/-- The operator dispatch of the conditional cross-field mode. -/
def condOperatorMet (op : String) (conditionFieldValue conditionValue : JsValue) : Bool :=
  if op = "equals" then jsLooseEq conditionFieldValue conditionValue
  else if op = "notEquals" then !jsLooseEq conditionFieldValue conditionValue
  else if op = "greaterThan" then
    JNum.lt (jsToNumber conditionValue) (jsToNumber conditionFieldValue)
  else if op = "lessThan" then
    JNum.lt (jsToNumber conditionFieldValue) (jsToNumber conditionValue)
  else if op = "greaterThanOrEqual" then
    JNum.le (jsToNumber conditionValue) (jsToNumber conditionFieldValue)
  else if op = "lessThanOrEqual" then
    JNum.le (jsToNumber conditionFieldValue) (jsToNumber conditionValue)
  else if op = "contains" then
    strIncludes (jsToString conditionFieldValue) (jsToString conditionValue)
  else if op = "startsWith" then
    strStartsWith (jsToString conditionFieldValue) (jsToString conditionValue)
  else if op = "endsWith" then
    strEndsWith (jsToString conditionFieldValue) (jsToString conditionValue)
  else jsLooseEq conditionFieldValue conditionValue

/-- The evaluateTargetCondition helper of the conditional mode; its format
branch contains a RegExp constructor that can throw. -/
def evaluateTargetCondition (env : JsEnv) (v : JsValue) (c : TargetCondition) :
    Except String VOut :=
  if c.type = some "required" then
    if v = .undefined ∨ v = .null ∨ v = .str "" then
      .ok { passed := false,
            message := some (jsOrDefault c.message "Field is required based on conditional rule") }
    else .ok { passed := true }
  else if c.type = some "format" then
    match c.pattern with
    | some p =>
      if p = "" then .ok { passed := true }
      else if env.regexCompiles p then
        if env.regexTest p (jsToString v) then .ok { passed := true }
        else .ok { passed := false,
                   message := some (jsOrDefault c.message ("Value does not match required format: " ++ p)) }
      else .error ("SyntaxError: Invalid regular expression: " ++ p)
    | none => .ok { passed := true }
  else if c.type = some "range" then
    let numValue := jsToNumber v
    if numValue = .nan then
      .ok { passed := false, message := some (jsOrDefault c.message "Value must be a number") }
    else
      match c.min with
      | some m =>
        if JNum.lt numValue m then
          .ok { passed := false,
                message := some (jsOrDefault c.message
                  ("Value " ++ jnToString numValue ++ " is below minimum " ++ jnToString m)) }
        else
          match c.max with
          | some mx =>
            if JNum.lt mx numValue then
              .ok { passed := false,
                    message := some (jsOrDefault c.message
                      ("Value " ++ jnToString numValue ++ " is above maximum " ++ jnToString mx)) }
            else .ok { passed := true }
          | none => .ok { passed := true }
      | none =>
        match c.max with
        | some mx =>
          if JNum.lt mx numValue then
            .ok { passed := false,
                  message := some (jsOrDefault c.message
                    ("Value " ++ jnToString numValue ++ " is above maximum " ++ jnToString mx)) }
          else .ok { passed := true }
        | none => .ok { passed := true }
  else .ok { passed := true }

/-- The validateConditionalCrossField validator. -/
def validateConditionalCrossField (env : JsEnv) (cfg : RuleConfiguration) (ds : Dataset) :
    Except String VOut :=
  if optStrFalsy cfg.conditionField ∨ optStrFalsy cfg.targetField then .ok { passed := true }
  else
    let conditionFieldValue := lookupField ds (cfg.conditionField.getD "")
    let targetFieldValue := lookupField ds (cfg.targetField.getD "")
    let op := jsOrDefault cfg.conditionOperator "equals"
    let conditionMet := condOperatorMet op conditionFieldValue (cfg.conditionValue.getD .undefined)
    if conditionMet then
      match cfg.targetCondition with
      | some tc =>
        match evaluateTargetCondition env targetFieldValue tc with
        | .error e => .error e
        | .ok targetValidation =>
          if targetValidation.passed then .ok { passed := true }
          else .ok { passed := false,
                     message := some ("Conditional validation failed: " ++ optTemplate targetValidation.message) }
      | none => .ok { passed := true }
    else .ok { passed := true }

/-- The switch of the comparison mode on converted operands (dates have
become their millisecond time values, everything else a number). -/
def comparisonSwitch (op : String) (a b expected : JNum) : Bool :=
  if op = "lessThan" then JNum.lt a b
  else if op = "greaterThan" then JNum.lt b a
  else if op = "lessThanOrEqual" then JNum.le a b
  else if op = "greaterThanOrEqual" then JNum.le b a
  else if op = "sumEquals" then JNum.jeq (JNum.add a b) expected
  else if op = "sumLessThan" then JNum.lt (JNum.add a b) expected
  else JNum.lt expected (JNum.add a b)

/-- The validateComparisonCrossField validator: operand conversion (dates
if both values are valid date strings, numbers otherwise) happens only for
the seven converted operators; equals, notEquals and unknown operators
loosely compare the raw values. -/
def validateComparisonCrossField (cfg : RuleConfiguration) (ds : Dataset) : VOut :=
  if optStrFalsy cfg.field1 ∨ optStrFalsy cfg.field2 ∨ optStrFalsy cfg.comparisonOperator then
    { passed := true }
  else
    let f1 := cfg.field1.getD ""
    let f2 := cfg.field2.getD ""
    let op := cfg.comparisonOperator.getD ""
    let value1 := lookupField ds f1
    let value2 := lookupField ds f2
    let expected := jsToNumber (cfg.expectedSum.getD .undefined)
    let comparisonResult : Bool :=
      if op = "lessThan" ∨ op = "greaterThan" ∨ op = "lessThanOrEqual" ∨
          op = "greaterThanOrEqual" ∨ op = "sumEquals" ∨ op = "sumLessThan" ∨
          op = "sumGreaterThan" then
        match jsDateValue value1, jsDateValue value2 with
        | some d1, some d2 => comparisonSwitch op (jint d1) (jint d2) expected
        | _, _ => comparisonSwitch op (jsToNumber value1) (jsToNumber value2) expected
      else if op = "equals" then jsLooseEq value1 value2
      else if op = "notEquals" then !jsLooseEq value1 value2
      else jsLooseEq value1 value2
    if comparisonResult then { passed := true }
    else { passed := false,
           message := some ("Comparison validation failed: " ++ f1 ++ " " ++ op ++ " " ++ f2 ++ " condition not met") }

/-- The validateDependencyCrossField validator. -/
def validateDependencyCrossField (cfg : RuleConfiguration) (ds : Dataset) : VOut :=
  if optStrFalsy cfg.dependentField ∨ optStrFalsy cfg.targetField then { passed := true }
  else
    let dependentValue := lookupField ds (cfg.dependentField.getD "")
    let targetValue := lookupField ds (cfg.targetField.getD "")
    let requiredValue := cfg.requiredValue.getD .undefined
    if jsLooseEq dependentValue requiredValue then
      if targetValue = .undefined ∨ targetValue = .null ∨ targetValue = .str "" then
        { passed := false,
          message := some ("When " ++ cfg.dependentField.getD "" ++ " is " ++
            jsToString requiredValue ++ ", " ++ cfg.targetField.getD "" ++ " is required") }
      else { passed := true }
    else { passed := true }

/-- The age-verification business rule. -/
def validateAgeVerificationRule (ds : Dataset) : VOut :=
  if JNum.le (jint 18) (jsToNumber (lookupField ds "age")) then
    if !jsTruthy (lookupField ds "idType") ∨ !jsTruthy (lookupField ds "verificationDocument") then
      { passed := false,
        message := some "For users 18 or older, ID type and verification document are required" }
    else { passed := true }
  else { passed := true }

/-- The email-phone-required business rule. -/
def validateEmailOrPhoneRequiredRule (ds : Dataset) : VOut :=
  let email := lookupField ds "email"
  let phone := lookupField ds "phone"
  if (!jsTruthy email ∨ email = .str "") ∧ (!jsTruthy phone ∨ phone = .str "") then
    { passed := false, message := some "Either email or phone must be provided" }
  else { passed := true }

/-- The minors-consent business rule. -/
def validateMinorsConsentRule (ds : Dataset) : VOut :=
  if JNum.lt (jsToNumber (lookupField ds "age")) (jint 18) then
    if !jsTruthy (lookupField ds "guardianConsent") then
      { passed := false, message := some "Guardian consent is required for users under 18" }
    else if !jsTruthy (lookupField ds "guardianEmail") then
      { passed := false, message := some "Guardian email is required for users under 18" }
    else { passed := true }
  else { passed := true }

/-- The employment-status check of the salary-verification business rule. -/
def salaryStatusStep (ds : Dataset) : VOut :=
  let salary := jsToNumber (lookupField ds "salary")
  let employmentStatus := lookupField ds "employmentStatus"
  if JNum.lt (jint 0) salary ∧
      !jsStrictEq employmentStatus (.str "employed") ∧
      !jsStrictEq employmentStatus (.str "self-employed") ∧
      !jsStrictEq employmentStatus (.str "retired") ∧
      !jsStrictEq employmentStatus (.str "unemployed") ∧
      !jsStrictEq employmentStatus (.str "student") then
    { passed := false,
      message := some "Valid employment status must be provided when salary is specified" }
  else { passed := true }

/-- The salary-verification business rule. -/
def validateSalaryVerificationRule (ds : Dataset) : VOut :=
  if JNum.lt (jint 100000) (jsToNumber (lookupField ds "salary")) ∧
      !jsTruthy (lookupField ds "salaryVerification") then
    { passed := false,
      message := some "Salary verification is required for salaries above 100,000" }
  else salaryStatusStep ds

/-- The validateBusinessRuleCrossField validator with its fixed catalogue. -/
def validateBusinessRuleCrossField (cfg : RuleConfiguration) (ds : Dataset) : VOut :=
  match cfg.businessRule with
  | none => { passed := true }
  | some br =>
    if br = "" then { passed := true }
    else if br = "age-verification" then validateAgeVerificationRule ds
    else if br = "email-phone-required" then validateEmailOrPhoneRequiredRule ds
    else if br = "minors-consent" then validateMinorsConsentRule ds
    else if br = "salary-verification" then validateSalaryVerificationRule ds
    else { passed := true }

/-- The validateCrossField dispatcher on configuration.type; a rule
conforming to the RuleDefinition shape always has a configuration object,
so the falsy-configuration guard of the source never fires. -/
def validateCrossField (env : JsEnv) (cfg : RuleConfiguration) (ds : Dataset) :
    Except String VOut :=
  if cfg.type = some "conditional" then validateConditionalCrossField env cfg ds
  else if cfg.type = some "comparison" then .ok (validateComparisonCrossField cfg ds)
  else if cfg.type = some "dependency" then .ok (validateDependencyCrossField cfg ds)
  else if cfg.type = some "businessRule" then .ok (validateBusinessRuleCrossField cfg ds)
  else .ok (validateLegacyCrossField cfg ds)

/-- The validateCustom extension hook: always passes. -/
def validateCustom : VOut := { passed := true }

namespace ValidationEngine

/-- The executeRule dispatcher on ruleType. -/
def executeRule (env : JsEnv) (rule : RuleDefinition) (v : JsValue) (ds : Dataset) :
    Except String VOut :=
  if rule.ruleType = "format" then validateFormat env rule.configuration v
  else if rule.ruleType = "range" then .ok (validateRange rule.configuration v)
  else if rule.ruleType = "completeness" then .ok (validateCompleteness rule.configuration v)
  else if rule.ruleType = "uniqueness" then .ok (validateUniqueness v ds)
  else if rule.ruleType = "crossField" then validateCrossField env rule.configuration ds
  else if rule.ruleType = "custom" then .ok validateCustom
  else .ok { passed := false, message := some ("Unknown rule type: " ++ rule.ruleType) }

/-- Translate a wildcard target pattern to the anchored regular
expression source the engine builds (every star replaced by dot-star). -/
def globRegex (p : String) : String :=
  "^" ++ String.mk (p.data.flatMap (fun c => if c = '*' then ['.', '*'] else [c])) ++ "$"

/-- The findMatchingFields resolver; the RegExp constructor on a
wildcard-derived pattern is the statement that can throw. -/
def findMatchingFields (env : JsEnv) (p : String) (ds : Dataset) :
    Except String (List String) :=
  if p = "*" then .ok (jsObjectKeys ds)
  else if p.data.contains '*' then
    let rx := globRegex p
    if env.regexCompiles rx then
      .ok ((jsObjectKeys ds).filter (fun f => env.regexTest rx f))
    else .error ("SyntaxError: Invalid regular expression: " ++ rx)
  else if hasField ds p then .ok [p] else .ok []

/-- Build the ValidationResult the engine pushes for one field. -/
def mkResult (rule : RuleDefinition) (f : String) (v : JsValue) (out : VOut) :
    ValidationResult :=
  { ruleId := rule.id, ruleName := rule.name, field := f, value := v,
    severity := jsOrDefault rule.severity "error",
    message := out.message, passed := out.passed }

/-- The per-field loop of applyRule; executeRule always returns an object
(never a falsy value), so every matched field contributes one result. -/
def applyRuleOnFields (env : JsEnv) (rule : RuleDefinition) (ds : Dataset) :
    List String → Except String (List ValidationResult)
  | [] => .ok []
  | f :: fs =>
    match executeRule env rule (lookupField ds f) ds with
    | .error e => .error e
    | .ok out =>
      match applyRuleOnFields env rule ds fs with
      | .error e => .error e
      | .ok rest => .ok (mkResult rule f (lookupField ds f) out :: rest)

/-- The applyRule step: resolve matching fields, then validate each. -/
def applyRule (env : JsEnv) (rule : RuleDefinition) (ds : Dataset) :
    Except String (List ValidationResult) :=
  match findMatchingFields env rule.target.field ds with
  | .error e => .error e
  | .ok fields => applyRuleOnFields env rule ds fields

/-- The validate entry point: every enabled rule in load order, results
concatenated in rule order then field-match order. -/
def validate (env : JsEnv) : List RuleDefinition → Dataset →
    Except String (List ValidationResult)
  | [], _ => .ok []
  | rule :: rs, ds =>
    if rule.enabled = some false then validate env rs ds
    else
      match applyRule env rule ds with
      | .error e => .error e
      | .ok res =>
        match validate env rs ds with
        | .error e => .error e
        | .ok rest => .ok (res ++ rest)

end ValidationEngine

/-- Whether an Except value is a normal return. -/
def exceptOk {α β : Type} : Except α β → Bool
  | .ok _ => true
  | .error _ => false

/-- Decidable equality for Except values, used to evaluate the engine on
concrete inputs. -/
instance {α β : Type} [DecidableEq α] [DecidableEq β] : DecidableEq (Except α β) :=
  fun x y =>
    match x, y with
    | .ok a, .ok b =>
      if h : a = b then isTrue (by rw [h]) else isFalse (fun hc => h (Except.ok.inj hc))
    | .error a, .error b =>
      if h : a = b then isTrue (by rw [h]) else isFalse (fun hc => h (Except.error.inj hc))
    | .ok _, .error _ => isFalse (fun hc => Except.noConfusion hc)
    | .error _, .ok _ => isFalse (fun hc => Except.noConfusion hc)

/-- A range configuration with min 0, max 150, inclusive bounds (the
worked example of the specification). -/
def cfg150 : RuleConfiguration :=
  { min := some (jint 0), max := some (jint 150), inclusive := some true }

/-- First-failure scan over an ordered list of (fails, message) checks,
as the completeness claim describes the validator. -/
def firstFailure : List (Bool × String) → VOut
  | [] => { passed := true }
  | (failed, msg) :: rest =>
    if failed then { passed := false, message := some msg } else firstFailure rest

/-- The completeness validator as the claim words it: the configured
checks in the fixed order required, notEmpty, minLength, short-circuiting
on the first failure and skipping unconfigured checks. -/
def completenessSpec (cfg : RuleConfiguration) (v : JsValue) : VOut :=
  firstFailure (
    (if cfg.required = some true then
      [(decide (v = .undefined ∨ v = .null), "Required field is missing")]
     else []) ++
    (if cfg.notEmpty = some true then
      [(decide (v = .undefined ∨ v = .null ∨ jsTrim (jsToString v) = ""), "Field must not be empty")]
     else []) ++
    (match cfg.minLength with
     | some n =>
       [(decide (v ≠ .undefined ∧ v ≠ .null) && JNum.lt (jint ((jsToString v).length : Int)) n,
         "Field length " ++ Nat.repr (jsToString v).length ++
           " is below minimum required length of " ++ jnToString n)]
     | none => []))

/-- The seven operator substrings of the legacy evaluator, in the
priority order the source tests them. -/
def legacyOperators : List String := ["==", "!=", ">=", "<=", ">", "<", "includes"]

/-- Apply one legacy operator to the dependent value and the resolved
right operand. -/
def applyLegacyOperator (op : String) (dependentValue rhs : JsValue) : Bool :=
  if op = "==" then jsLooseEq dependentValue rhs
  else if op = "!=" then !jsLooseEq dependentValue rhs
  else if op = ">=" then JNum.le (jsToNumber rhs) (jsToNumber dependentValue)
  else if op = "<=" then JNum.le (jsToNumber dependentValue) (jsToNumber rhs)
  else if op = ">" then JNum.lt (jsToNumber rhs) (jsToNumber dependentValue)
  else if op = "<" then JNum.lt (jsToNumber dependentValue) (jsToNumber rhs)
  else strIncludes (jsToString dependentValue) (jsToString rhs)

/-- The legacy evaluation as the claim describes it: exactly one operator
selected by substring tests in priority order; the dependent value is
compared against the right operand, a brace-enclosed operand resolving to
a record field and anything else taken as a literal. -/
def specLegacyEval (expr : String) (dependentValue : JsValue) (ds : Dataset) : Bool :=
  match legacyOperators.find? (fun op => strIncludes expr op) with
  | some op => applyLegacyOperator op dependentValue (resolveValue (rightOperand expr op) ds)
  | none => decide (expr ≠ "")

/-- The comparison switch extended with equals and notEquals on the
converted operands, as the claim (but not the source) applies conversion
to every operator. -/
def comparisonSwitchWithEq (op : String) (a b expected : JNum) : Bool :=
  if op = "equals" then JNum.jeq a b
  else if op = "notEquals" then !JNum.jeq a b
  else comparisonSwitch op a b expected

/-- The comparison outcome the claim describes for every operator: if
both field values parse as valid dates the comparison is performed on the
parsed dates, otherwise both values are coerced to numbers. -/
def claimComparisonResult (op : String) (v1 v2 : JsValue) (expected : JNum) : Bool :=
  match jsDateValue v1, jsDateValue v2 with
  | some d1, some d2 => comparisonSwitchWithEq op (jint d1) (jint d2) expected
  | _, _ => comparisonSwitchWithEq op (jsToNumber v1) (jsToNumber v2) expected

/-- A comparison rule configuration for the date ordering example. -/
def cfgLT : RuleConfiguration :=
  { type := some "comparison", field1 := some "startDate", field2 := some "endDate",
    comparisonOperator := some "lessThan" }

/-- Record with a start date before the end date. -/
def dsDatesFwd : Dataset := [("startDate", .str "2023-01-01"), ("endDate", .str "2023-12-31")]

/-- Record with the two dates reversed. -/
def dsDatesRev : Dataset := [("startDate", .str "2023-12-31"), ("endDate", .str "2023-01-01")]

/-- A comparison rule configuration with operator equals. -/
def cfgEqCmp : RuleConfiguration :=
  { type := some "comparison", field1 := some "a", field2 := some "b",
    comparisonOperator := some "equals" }

/-- Record whose two fields hold numerically equal but textually distinct
strings. -/
def dsEqNum : Dataset := [("a", .str "1.0"), ("b", .str "1")]

/-- Whether an optional configured pattern, when present and truthy, is a
valid regular expression source in the environment. -/
def patternOk (env : JsEnv) (po : Option String) : Bool :=
  match po with
  | some p => if p = "" then true else env.regexCompiles p
  | none => true

/-- Whether a target field pattern compiles once translated to a regular
expression (trivially true for the plain-star and wildcard-free cases that
never reach the RegExp constructor). -/
def targetRegexOk (env : JsEnv) (t : String) : Bool :=
  if t = "*" then true
  else if t.data.contains '*' then env.regexCompiles (ValidationEngine.globRegex t)
  else true

/-- Whether every regular expression source the engine may compile while
processing this rule is valid in the environment: the wildcard-derived
target regex, the configured format pattern, and the format pattern of a
conditional target condition.  This is the regex-validity part of
conforming to the RuleDefinition shape. -/
def ruleRegexOk (env : JsEnv) (r : RuleDefinition) : Bool :=
  targetRegexOk env r.target.field &&
  patternOk env r.configuration.pattern &&
  (match r.configuration.targetCondition with
   | some tc => patternOk env tc.pattern
   | none => true)

/-- Whether a rule avoids the legacy cross-field mode (any rule type
other than crossField, or a crossField rule with one of the four typed
configuration modes). -/
def notLegacyCrossField (r : RuleDefinition) : Bool :=
  if r.ruleType = "crossField" then
    decide (r.configuration.type = some "conditional") ||
    decide (r.configuration.type = some "comparison") ||
    decide (r.configuration.type = some "dependency") ||
    decide (r.configuration.type = some "businessRule")
  else true

/-- A validator output whose failure carries a populated message. -/
def msgPopulated (out : VOut) : Prop :=
  out.passed = false → ∃ m, out.message = some m ∧ m ≠ ""

/-- A rule whose wildcard target pattern contains an unmatched group
parenthesis, making the RegExp constructor throw. -/
def ruleParen : RuleDefinition :=
  { id := "rule-paren", name := "paren target", ruleType := "completeness",
    target := ⟨"(*"⟩, configuration := {} }

/-- A legacy cross-field rule whose condition is a plain equality against
a literal. -/
def legacyRuleC8 : RuleDefinition :=
  { id := "legacy-1", name := "legacy condition", ruleType := "crossField",
    target := ⟨"a"⟩,
    configuration := { dependentField := some "b", condition := some "b == 1" } }

/-- A record on which the legacy rule above evaluates to a failed
condition. -/
def dsC8 : Dataset := [("a", .str "x"), ("b", .str "2")]

/-- A wildcard completeness rule used to instantiate the one-result-per-
field theorem. -/
def ruleStarC3 : RuleDefinition :=
  { id := "star-1", name := "star rule", ruleType := "completeness",
    target := ⟨"*"⟩, configuration := { required := some true } }

/-- A two-field record used to instantiate concrete witnesses. -/
def dsTwoFields : Dataset := [("a", .str "1"), ("b", .num (jint 2))]

/-- A uniqueness-claim record holding the string five and the number five
in different fields. -/
def dsMixedFive : Dataset := [("a", .str "5"), ("b", .num (jint 5))]

/-- A range rule targeting the age field with the worked-example bounds. -/
def ruleRange151 : RuleDefinition :=
  { id := "range-1", name := "range rule", ruleType := "range",
    target := ⟨"age"⟩, configuration := cfg150 }

/-- A record whose age field is out of the range bounds. -/
def dsAge151 : Dataset := [("age", .num (jint 151))]

/-- The single result the engine produces for the rule and record above. -/
def resultRange151 : ValidationResult :=
  { ruleId := "range-1", ruleName := "range rule", field := "age",
    value := .num (jint 151), severity := "error",
    message := some "Value 151 is above maximum limit of 150", passed := false }

/-!
Sanity checks of the value model on concrete inputs, followed by helper
lemmas and the claim theorems.
-/

example : jsStrToNumber "" = .fin ⟨0, 1⟩ := by decide
example : jsStrToNumber " 150 " = jint 150 := by decide
example : jsStrToNumber "abc" = .nan := by decide
example : jsStrToNumber "Infinity" = .posInf := by decide
example : jsStrToNumber "-1" = .fin ⟨-1, 1⟩ := by decide
example : jsStrToNumber "1.5" = .fin ⟨15, 10⟩ := by decide
example : jsStrToNumber "0x10" = jint 16 := by decide
example : JNum.jeq (jsStrToNumber "1e2") (jint 100) = true := by decide
example : jsDateParse "2023-01-01" = some 1672531200000 := by decide
example : jsDateParse "2023-02-30" = none := by decide
example : jnToString (jint 151) = "151" := by decide
example : jnToString (.fin ⟨15, 10⟩) = "1.5" := by decide
example : jsSplit "a == b == c" "==" = ["a ", " b ", " c"] := by decide
example : rightOperand "age >= 18" ">=" = "18" := by decide
example : strIncludes "a <= b" "==" = false := by decide
example : jsRegexCompilesModel "^(.*$" = false := by decide
example : jsRegexCompilesModel "^.*name$" = true := by decide

/-- Enumeration order equals insertion order on records without
array-index field names. -/
theorem jsObjectKeys_eq_map_fst (ds : Dataset)
    (h : ∀ k ∈ ds.map Prod.fst, isArrayIndexKey k = false) :
    jsObjectKeys ds = ds.map Prod.fst := by
  have h1 : (ds.map Prod.fst).filter isArrayIndexKey = [] := by
    rw [List.filter_eq_nil_iff]
    intro a ha
    simp [h a ha]
  have h2 : (ds.map Prod.fst).filter (fun k => !isArrayIndexKey k) = ds.map Prod.fst := by
    rw [List.filter_eq_self]
    intro a ha
    simp [h a ha]
  simp only [jsObjectKeys]
  rw [h1, h2]
  rfl

/-- A string with a nonempty left append component is nonempty. -/
theorem str_append_ne_empty (a b : String) (h : a ≠ "") : a ++ b ≠ "" := by
  intro hc
  apply h
  cases a with
  | mk la =>
    cases b with
    | mk lb =>
      have hd : la ++ lb = [] := congrArg String.data hc
      have hla : la = [] := (List.append_eq_nil.mp hd).1
      simp [hla]

/-- The bound checks of the range validator pass exactly when the value
violates neither the configured minimum nor the configured maximum. -/
theorem rangeBounds_passed_iff (cfg : RuleConfiguration) (n : JNum) :
    (rangeBounds cfg n).passed = true ↔
      (∀ m, cfg.min = some m →
        (if cfg.inclusive ≠ some false then JNum.lt n m else JNum.le n m) = false) ∧
      (∀ m, cfg.max = some m →
        (if cfg.inclusive ≠ some false then JNum.lt m n else JNum.le m n) = false) := by
  unfold rangeBounds
  cases hmin : cfg.min <;> cases hmax : cfg.max <;>
    simp only [hmin, hmax] <;> split_ifs <;> simp_all

/-- Evaluating a target condition returns normally whenever its optional
format pattern compiles. -/
theorem evaluateTargetCondition_ok (env : JsEnv) (v : JsValue) (tc : TargetCondition)
    (h : patternOk env tc.pattern = true) :
    ∃ out, evaluateTargetCondition env v tc = .ok out := by
  unfold patternOk at h
  cases hp : tc.pattern <;> rw [hp] at h <;>
    cases hmn : tc.min <;> cases hmx : tc.max <;>
    simp only [evaluateTargetCondition, hp, hmn, hmx] <;>
    split_ifs <;> first | exact ⟨_, rfl⟩ | simp_all

/-- The format validator returns normally whenever its optional pattern
compiles. -/
theorem validateFormat_ok (env : JsEnv) (cfg : RuleConfiguration) (v : JsValue)
    (h : patternOk env cfg.pattern = true) :
    ∃ out, validateFormat env cfg v = .ok out := by
  unfold patternOk at h
  cases hp : cfg.pattern <;> rw [hp] at h <;>
    simp only [validateFormat, hp] <;>
    split_ifs <;> first | exact ⟨_, rfl⟩ | simp_all

/-- The conditional cross-field validator returns normally whenever its
target-condition pattern compiles. -/
theorem validateConditionalCrossField_ok (env : JsEnv) (cfg : RuleConfiguration)
    (ds : Dataset)
    (h : (match cfg.targetCondition with
          | some tc => patternOk env tc.pattern
          | none => true) = true) :
    ∃ out, validateConditionalCrossField env cfg ds = .ok out := by
  cases htc : cfg.targetCondition with
  | none =>
    simp only [validateConditionalCrossField, htc]
    split_ifs <;> exact ⟨_, rfl⟩
  | some tc =>
    rw [htc] at h
    obtain ⟨out, hout⟩ :=
      evaluateTargetCondition_ok env (lookupField ds (cfg.targetField.getD "")) tc h
    simp only [validateConditionalCrossField, htc, hout]
    split_ifs <;> exact ⟨_, rfl⟩

/-- The cross-field dispatcher returns normally whenever a conditional
target-condition pattern compiles. -/
theorem validateCrossField_ok (env : JsEnv) (cfg : RuleConfiguration) (ds : Dataset)
    (h : (match cfg.targetCondition with
          | some tc => patternOk env tc.pattern
          | none => true) = true) :
    ∃ out, validateCrossField env cfg ds = .ok out := by
  unfold validateCrossField
  split_ifs with h1 <;> try exact ⟨_, rfl⟩
  exact validateConditionalCrossField_ok env cfg ds h

/-- Rule execution returns normally for every rule whose regular
expressions compile. -/
theorem executeRule_ok (env : JsEnv) (rule : RuleDefinition) (v : JsValue) (ds : Dataset)
    (h : ruleRegexOk env rule = true) :
    ∃ out, ValidationEngine.executeRule env rule v ds = .ok out := by
  unfold ruleRegexOk at h
  simp only [Bool.and_eq_true] at h
  unfold ValidationEngine.executeRule
  split_ifs <;> try exact ⟨_, rfl⟩
  · exact validateFormat_ok env rule.configuration v h.1.2
  · exact validateCrossField_ok env rule.configuration ds h.2

/-- Field resolution returns normally whenever the wildcard-derived
regular expression compiles. -/
theorem findMatchingFields_ok (env : JsEnv) (p : String) (ds : Dataset)
    (h : targetRegexOk env p = true) :
    ∃ fs, ValidationEngine.findMatchingFields env p ds = .ok fs := by
  unfold targetRegexOk at h
  unfold ValidationEngine.findMatchingFields
  split_ifs at h ⊢ <;> first | exact ⟨_, rfl⟩ | simp_all

/-- The per-field loop returns one result per field, in order, for every
rule whose regular expressions compile. -/
theorem applyRuleOnFields_ok (env : JsEnv) (rule : RuleDefinition) (ds : Dataset)
    (fields : List String) (h : ruleRegexOk env rule = true) :
    ∃ res, ValidationEngine.applyRuleOnFields env rule ds fields = .ok res ∧
      res.map (fun r => r.field) = fields := by
  induction fields with
  | nil => exact ⟨[], rfl, rfl⟩
  | cons f fs ih =>
    obtain ⟨out, hout⟩ := executeRule_ok env rule (lookupField ds f) ds h
    obtain ⟨res, hres, hmap⟩ := ih
    refine ⟨ValidationEngine.mkResult rule f (lookupField ds f) out :: res, ?_, ?_⟩
    · simp only [ValidationEngine.applyRuleOnFields, hout, hres]
    · simp [hmap, ValidationEngine.mkResult]

/-- Applying one rule returns normally for every rule whose regular
expressions compile. -/
theorem applyRule_ok (env : JsEnv) (rule : RuleDefinition) (ds : Dataset)
    (h : ruleRegexOk env rule = true) :
    ∃ res, ValidationEngine.applyRule env rule ds = .ok res := by
  obtain ⟨fs, hfs⟩ := findMatchingFields_ok env rule.target.field ds (by
    unfold ruleRegexOk at h
    simp only [Bool.and_eq_true] at h
    exact h.1.1)
  obtain ⟨res, hres, _⟩ := applyRuleOnFields_ok env rule ds fs h
  exact ⟨res, by simp only [ValidationEngine.applyRule, hfs, hres]⟩

/-- Validation returns normally for every rule set whose regular
expressions compile. -/
theorem validate_ok (env : JsEnv) (rules : List RuleDefinition) (ds : Dataset)
    (h : ∀ r ∈ rules, ruleRegexOk env r = true) :
    ∃ res, ValidationEngine.validate env rules ds = .ok res := by
  induction rules with
  | nil => exact ⟨[], rfl⟩
  | cons r rs ih =>
    obtain ⟨rest, hrest⟩ := ih (fun x hx => h x (List.mem_cons_of_mem r hx))
    by_cases he : r.enabled = some false
    · exact ⟨rest, by simp only [ValidationEngine.validate, he, if_pos rfl]; exact hrest⟩
    · obtain ⟨res, hres⟩ := applyRule_ok env r ds (h r (List.mem_cons_self r rs))
      exact ⟨res ++ rest, by simp only [ValidationEngine.validate, hres, hrest, if_neg he]⟩

/-- The built-in data type checkers always carry a populated message on
failure. -/
theorem checkDataType_msg (env : JsEnv) (value dataType : String) :
    msgPopulated (checkDataType env value dataType) := by
  unfold checkDataType msgPopulated
  split_ifs <;> intro hp <;> simp_all <;>
    exact str_append_ne_empty _ _ (str_append_ne_empty _ _ (by decide))

/-- A normally returned format validation carries a populated message on
failure. -/
theorem validateFormat_msg (env : JsEnv) (cfg : RuleConfiguration) (v : JsValue)
    (out : VOut) (hok : validateFormat env cfg v = .ok out) : msgPopulated out := by
  unfold validateFormat at hok
  cases hdt : cfg.dataType <;> cases hp : cfg.pattern <;>
    simp only [hdt, hp] at hok
  all_goals repeat' split at hok
  all_goals
    first
      | contradiction
      | (injection hok with h; subst h;
         first
           | (intro hfail; exact Bool.noConfusion hfail)
           | (intro hfail; exact ⟨_, rfl, str_append_ne_empty _ _ (str_append_ne_empty _ _ (by decide))⟩)
           | exact checkDataType_msg env _ _)

/-- The range bound checks carry a populated message on failure. -/
theorem rangeBounds_msg (cfg : RuleConfiguration) (n : JNum) :
    msgPopulated (rangeBounds cfg n) := by
  unfold rangeBounds
  try dsimp only
  cases hmn : cfg.min <;> cases hmx : cfg.max <;> simp only [hmn, hmx] <;>
    (try split_ifs) <;>
    first
      | (intro hfail; exact Bool.noConfusion hfail)
      | (intro hfail; refine ⟨_, rfl, ?_⟩;
         (repeat apply str_append_ne_empty) <;> decide)

/-- The range validator carries a populated message on failure. -/
theorem validateRange_msg (cfg : RuleConfiguration) (v : JsValue) :
    msgPopulated (validateRange cfg v) := by
  unfold validateRange
  try dsimp only
  (try split_ifs) <;>
    first
      | (intro hfail; exact Bool.noConfusion hfail)
      | exact rangeBounds_msg cfg _
      | (intro hfail; refine ⟨_, rfl, ?_⟩;
         (repeat apply str_append_ne_empty) <;> decide)

/-- The completeness validator carries a populated message on failure. -/
theorem validateCompleteness_msg (cfg : RuleConfiguration) (v : JsValue) :
    msgPopulated (validateCompleteness cfg v) := by
  unfold validateCompleteness
  try dsimp only
  cases hml : cfg.minLength <;> simp only [hml] <;> (try split_ifs) <;>
    first
      | (intro hfail; exact Bool.noConfusion hfail)
      | (intro hfail; refine ⟨_, rfl, ?_⟩;
         (repeat apply str_append_ne_empty) <;> decide)

/-- The uniqueness validator carries a populated message on failure. -/
theorem validateUniqueness_msg (v : JsValue) (ds : Dataset) :
    msgPopulated (validateUniqueness v ds) := by
  unfold validateUniqueness
  try dsimp only
  (try split_ifs) <;>
    first
      | (intro hfail; exact Bool.noConfusion hfail)
      | (intro hfail; refine ⟨_, rfl, ?_⟩;
         (repeat apply str_append_ne_empty) <;> decide)

/-- The comparison cross-field validator carries a populated message on
failure. -/
theorem validateComparisonCrossField_msg (cfg : RuleConfiguration) (ds : Dataset) :
    msgPopulated (validateComparisonCrossField cfg ds) := by
  unfold validateComparisonCrossField
  try dsimp only
  (try split_ifs) <;>
    first
      | (intro hfail; exact Bool.noConfusion hfail)
      | (intro hfail; refine ⟨_, rfl, ?_⟩;
         (repeat apply str_append_ne_empty) <;> decide)

/-- The dependency cross-field validator carries a populated message on
failure. -/
theorem validateDependencyCrossField_msg (cfg : RuleConfiguration) (ds : Dataset) :
    msgPopulated (validateDependencyCrossField cfg ds) := by
  unfold validateDependencyCrossField
  try dsimp only
  (try split_ifs) <;>
    first
      | (intro hfail; exact Bool.noConfusion hfail)
      | (intro hfail; refine ⟨_, rfl, ?_⟩;
         (repeat apply str_append_ne_empty) <;> decide)

/-- Every business rule carries a populated message on failure. -/
theorem validateBusinessRuleCrossField_msg (cfg : RuleConfiguration) (ds : Dataset) :
    msgPopulated (validateBusinessRuleCrossField cfg ds) := by
  unfold validateBusinessRuleCrossField validateAgeVerificationRule
    validateEmailOrPhoneRequiredRule validateMinorsConsentRule
    validateSalaryVerificationRule salaryStatusStep
  try dsimp only
  cases hbr : cfg.businessRule <;> simp only [hbr] <;> (try split_ifs) <;>
    first
      | (intro hfail; exact Bool.noConfusion hfail)
      | (intro hfail; refine ⟨_, rfl, ?_⟩;
         (repeat apply str_append_ne_empty) <;> decide)

/-- A normally returned conditional cross-field validation carries a
populated message on failure. -/
theorem validateConditionalCrossField_msg (env : JsEnv) (cfg : RuleConfiguration)
    (ds : Dataset) (out : VOut)
    (hok : validateConditionalCrossField env cfg ds = .ok out) : msgPopulated out := by
  unfold validateConditionalCrossField at hok
  try dsimp only at hok
  cases htc : cfg.targetCondition with
  | none =>
    simp only [htc] at hok
    split_ifs at hok <;> (injection hok with h; subst h) <;>
      (intro hfail; exact Bool.noConfusion hfail)
  | some tc =>
    simp only [htc] at hok
    cases hev : evaluateTargetCondition env (lookupField ds (cfg.targetField.getD "")) tc with
    | error e =>
      rw [hev] at hok
      try dsimp only at hok
      split_ifs at hok <;>
        first
          | contradiction
          | (injection hok with h; subst h; intro hfail; exact Bool.noConfusion hfail)
    | ok tv =>
      rw [hev] at hok
      try dsimp only at hok
      split_ifs at hok <;>
        first
          | contradiction
          | (injection hok with h; subst h;
             first
               | (intro hfail; exact Bool.noConfusion hfail)
               | (intro hfail; refine ⟨_, rfl, ?_⟩;
                  (repeat apply str_append_ne_empty) <;> decide))

/-- A normally returned cross-field validation in one of the four typed
modes carries a populated message on failure. -/
theorem validateCrossField_msg (env : JsEnv) (cfg : RuleConfiguration) (ds : Dataset)
    (out : VOut) (hok : validateCrossField env cfg ds = .ok out)
    (hnl : cfg.type = some "conditional" ∨ cfg.type = some "comparison" ∨
      cfg.type = some "dependency" ∨ cfg.type = some "businessRule") :
    msgPopulated out := by
  unfold validateCrossField at hok
  split_ifs at hok with h1 h2 h3 h4
  · exact validateConditionalCrossField_msg env cfg ds out hok
  · injection hok with h; subst h; exact validateComparisonCrossField_msg cfg ds
  · injection hok with h; subst h; exact validateDependencyCrossField_msg cfg ds
  · injection hok with h; subst h; exact validateBusinessRuleCrossField_msg cfg ds
  · rcases hnl with h | h | h | h <;> simp_all

/-- A normally returned rule execution that is not a legacy cross-field
rule carries a populated message on failure. -/
theorem executeRule_msg (env : JsEnv) (rule : RuleDefinition) (v : JsValue) (ds : Dataset)
    (out : VOut) (hok : ValidationEngine.executeRule env rule v ds = .ok out)
    (hnl : notLegacyCrossField rule = true) : msgPopulated out := by
  unfold ValidationEngine.executeRule at hok
  split_ifs at hok with h1 h2 h3 h4 h5 h6
  · exact validateFormat_msg env rule.configuration v out hok
  · injection hok with h; subst h; exact validateRange_msg rule.configuration v
  · injection hok with h; subst h; exact validateCompleteness_msg rule.configuration v
  · injection hok with h; subst h; exact validateUniqueness_msg v ds
  · refine validateCrossField_msg env rule.configuration ds out hok ?_
    unfold notLegacyCrossField at hnl
    rw [if_pos h5] at hnl
    simp only [Bool.or_eq_true, decide_eq_true_eq] at hnl
    tauto
  · injection hok with h; subst h; intro hfail; exact Bool.noConfusion hfail
  · injection hok with h; subst h
    intro hfail
    exact ⟨_, rfl, str_append_ne_empty _ _ (by decide)⟩

/-- Every failed result the per-field loop pushes for a non-legacy rule
carries a populated message. -/
theorem applyRuleOnFields_msg (env : JsEnv) (rule : RuleDefinition) (ds : Dataset)
    (fields : List String) (res : List ValidationResult)
    (hok : ValidationEngine.applyRuleOnFields env rule ds fields = .ok res)
    (hnl : notLegacyCrossField rule = true) :
    ∀ x ∈ res, x.passed = false → ∃ m, x.message = some m ∧ m ≠ "" := by
  induction fields generalizing res with
  | nil =>
    injection hok with h
    subst h
    intro x hx
    simp at hx
  | cons f fs ih =>
    unfold ValidationEngine.applyRuleOnFields at hok
    cases hex : ValidationEngine.executeRule env rule (lookupField ds f) ds with
    | error e => rw [hex] at hok; cases hok
    | ok out =>
      rw [hex] at hok
      try dsimp only at hok
      cases hrest : ValidationEngine.applyRuleOnFields env rule ds fs with
      | error e => rw [hrest] at hok; cases hok
      | ok rest =>
        rw [hrest] at hok
        try dsimp only at hok
        injection hok with h
        subst h
        intro x hx hfail
        rcases List.mem_cons.mp hx with hx1 | hx2
        · subst hx1
          exact executeRule_msg env rule (lookupField ds f) ds out hex hnl hfail
        · exact ih rest hrest x hx2 hfail

/-- Every failed result one non-legacy rule produces carries a populated
message. -/
theorem applyRule_msg (env : JsEnv) (rule : RuleDefinition) (ds : Dataset)
    (res : List ValidationResult)
    (hok : ValidationEngine.applyRule env rule ds = .ok res)
    (hnl : notLegacyCrossField rule = true) :
    ∀ x ∈ res, x.passed = false → ∃ m, x.message = some m ∧ m ≠ "" := by
  unfold ValidationEngine.applyRule at hok
  cases hfm : ValidationEngine.findMatchingFields env rule.target.field ds with
  | error e => rw [hfm] at hok; cases hok
  | ok fields =>
    rw [hfm] at hok
    exact applyRuleOnFields_msg env rule ds fields res hok hnl

/-- Every failed result a rule set without legacy cross-field rules
produces carries a populated message. -/
theorem validate_msg (env : JsEnv) (rules : List RuleDefinition) :
    ∀ (ds : Dataset) (res : List ValidationResult),
    ValidationEngine.validate env rules ds = .ok res →
    (∀ r ∈ rules, notLegacyCrossField r = true) →
    ∀ x ∈ res, x.passed = false → ∃ m, x.message = some m ∧ m ≠ "" := by
  induction rules with
  | nil =>
    intro ds res hok hnl x hx
    injection hok with h
    subst h
    simp at hx
  | cons r rs ih =>
    intro ds res hok hnl x hx hfail
    unfold ValidationEngine.validate at hok
    split_ifs at hok with he
    · exact ih ds res hok (fun a ha => hnl a (List.mem_cons_of_mem r ha)) x hx hfail
    · cases hap : ValidationEngine.applyRule env r ds with
      | error e => rw [hap] at hok; cases hok
      | ok res1 =>
        rw [hap] at hok
        cases hrest : ValidationEngine.validate env rs ds with
        | error e => rw [hrest] at hok; cases hok
        | ok rest =>
          rw [hrest] at hok
          try dsimp only at hok
          injection hok with h
          subst h
          rcases List.mem_append.mp hx with hx1 | hx2
          · exact applyRule_msg env r ds res1 hap (hnl r (List.mem_cons_self r rs)) x hx1 hfail
          · exact ih ds rest hrest (fun a ha => hnl a (List.mem_cons_of_mem r ha)) x hx2 hfail

/-- Claim C1, counterexample: a rule set conforming to the RuleDefinition
shape (target.field the string star-after-paren, empty configuration
object) makes validate raise: the wildcard branch of findMatchingFields
builds the regular expression caret-paren-dot-star-dollar, whose unmatched
group parenthesis is a SyntaxError in the RegExp constructor, so the claim
that validate returns normally for every conforming record/rule-set
combination is false. -/
theorem c1_counterexample :
    ValidationEngine.validate envModel [ruleParen] [("name", .str "Bob")] =
      .error "SyntaxError: Invalid regular expression: ^(.*$" ∧
    exceptOk (ValidationEngine.validate envModel [ruleParen] [("name", .str "Bob")]) = false := by
  decide

/-- Claim C1, amended: validate(record) returns normally for every record
and loaded rule set provided every regular expression the run can compile
is valid: the regex derived from a wildcard target pattern, a configured
format pattern, and the format pattern of a conditional target condition.
All other failure modes are handled internally and never raise. -/
theorem c1_validate_no_throw_amended (env : JsEnv) (rules : List RuleDefinition)
    (ds : Dataset) (h : ∀ r ∈ rules, ruleRegexOk env r = true) :
    exceptOk (ValidationEngine.validate env rules ds) = true := by
  obtain ⟨res, hres⟩ := validate_ok env rules ds h
  rw [hres]
  rfl

/-- Witness for the amended claim C1 at a concrete rule set and record. -/
theorem c1_validate_no_throw_amended_witness :
    exceptOk (ValidationEngine.validate envTriv [ruleStarC3] dsTwoFields) = true :=
  c1_validate_no_throw_amended envTriv [ruleStarC3] dsTwoFields (by decide)

/-- Claim C2, counterexample: with comparison operator equals the source
does not coerce at all but compares the raw values loosely, so two fields
holding the strings one-point-zero and one fail although the claim
(coerce both to numbers for every operator) predicts a pass. -/
theorem c2_counterexample :
    claimComparisonResult "equals" (.str "1.0") (.str "1") .nan = true ∧
    validateComparisonCrossField cfgEqCmp dsEqNum =
      { passed := false,
        message := some "Comparison validation failed: a equals b condition not met" } := by
  decide

/-- Claim C2, amended: the date-else-number conversion applies only to the
ordering (and sum) operators, not to equals/notEquals; for the four
ordering operators the comparison is performed on the parsed dates when
both values are valid date strings and on number coercions otherwise, and
the worked date example passes forward and fails reversed. -/
theorem c2_comparison_dates_amended :
    (∀ (cfg : RuleConfiguration) (ds : Dataset) op,
      cfg.comparisonOperator = some op →
      (op = "lessThan" ∨ op = "greaterThan" ∨ op = "lessThanOrEqual" ∨
        op = "greaterThanOrEqual") →
      optStrFalsy cfg.field1 = false → optStrFalsy cfg.field2 = false →
      (validateComparisonCrossField cfg ds).passed =
        (match jsDateValue (lookupField ds (cfg.field1.getD "")),
               jsDateValue (lookupField ds (cfg.field2.getD "")) with
         | some d1, some d2 =>
           comparisonSwitch op (jint d1) (jint d2) (jsToNumber (cfg.expectedSum.getD .undefined))
         | _, _ =>
           comparisonSwitch op (jsToNumber (lookupField ds (cfg.field1.getD "")))
             (jsToNumber (lookupField ds (cfg.field2.getD "")))
             (jsToNumber (cfg.expectedSum.getD .undefined)))) ∧
    (validateComparisonCrossField cfgLT dsDatesFwd).passed = true ∧
    (validateComparisonCrossField cfgLT dsDatesRev).passed = false := by
  refine ⟨?_, by decide, by decide⟩
  intro cfg ds op hop hmem hf1 hf2
  unfold validateComparisonCrossField
  rcases hmem with h | h | h | h <;> subst h <;>
    simp_all [optStrFalsy] <;>
    (cases jsDateValue (lookupField ds (cfg.field1.getD "")) <;>
     cases jsDateValue (lookupField ds (cfg.field2.getD "")) <;>
     simp [comparisonSwitch] <;> split_ifs <;> simp_all)

/-- Witness for the amended claim C2 at the worked date example. -/
theorem c2_comparison_dates_amended_witness :
    (validateComparisonCrossField cfgLT dsDatesFwd).passed =
      (match jsDateValue (lookupField dsDatesFwd (cfgLT.field1.getD "")),
             jsDateValue (lookupField dsDatesFwd (cfgLT.field2.getD "")) with
       | some d1, some d2 =>
         comparisonSwitch "lessThan" (jint d1) (jint d2)
           (jsToNumber (cfgLT.expectedSum.getD .undefined))
       | _, _ =>
         comparisonSwitch "lessThan" (jsToNumber (lookupField dsDatesFwd (cfgLT.field1.getD "")))
           (jsToNumber (lookupField dsDatesFwd (cfgLT.field2.getD "")))
           (jsToNumber (cfgLT.expectedSum.getD .undefined))) :=
  c2_comparison_dates_amended.1 cfgLT dsDatesFwd "lessThan" (by decide)
    (Or.inl rfl) (by decide) (by decide)

/-- Claim C3: for every non-empty record (without array-index field
names, where enumeration order is insertion order) and a rule set of one
enabled rule with target pattern star whose configured regular
expressions compile, validate returns exactly one ValidationResult per
record field, in record field order. -/
theorem c3_wildcard_one_result_per_field (env : JsEnv) (r : RuleDefinition) (ds : Dataset)
    (hen : r.enabled ≠ some false) (htf : r.target.field = "*")
    (hrx : ruleRegexOk env r = true)
    (hkeys : ∀ k ∈ ds.map Prod.fst, isArrayIndexKey k = false)
    (hne : ds ≠ []) :
    ∃ res, ValidationEngine.validate env [r] ds = .ok res ∧
      res.map (fun x => x.field) = ds.map Prod.fst ∧
      res.length = ds.length := by
  have hf : ValidationEngine.findMatchingFields env r.target.field ds =
      .ok (ds.map Prod.fst) := by
    rw [htf]
    unfold ValidationEngine.findMatchingFields
    rw [if_pos rfl, jsObjectKeys_eq_map_fst ds hkeys]
  obtain ⟨res, hres, hmap⟩ := applyRuleOnFields_ok env r ds (ds.map Prod.fst) hrx
  refine ⟨res, ?_, hmap, ?_⟩
  · simp only [ValidationEngine.validate, ValidationEngine.applyRule, hf, hres, if_neg hen]
    simp
  · have hl := congrArg List.length hmap
    simpa using hl

/-- Witness for claim C3 at a concrete wildcard rule and two-field record. -/
theorem c3_wildcard_one_result_per_field_witness :
    ∃ res, ValidationEngine.validate envTriv [ruleStarC3] dsTwoFields = .ok res ∧
      res.map (fun x => x.field) = dsTwoFields.map Prod.fst ∧
      res.length = dsTwoFields.length :=
  c3_wildcard_one_result_per_field envTriv ruleStarC3 dsTwoFields
    (by decide) (by decide) (by decide) (by decide) (by decide)

/-- Claim C4, counterexample: the string Infinity coerces to a non-finite
non-NaN number, yet the range validator does not fail with the
non-numeric message: with no bounds it passes outright, and with max 150
it fails with the above-maximum message instead. -/
theorem c4_counterexample :
    jsToNumber (.str "Infinity") = .posInf ∧
    validateRange {} (.str "Infinity") = { passed := true, message := some "" } ∧
    validateRange cfg150 (.str "Infinity") =
      { passed := false, message := some "Value Infinity is above maximum limit of 150" } := by
  decide

/-- Claim C4, amended: for every non-null, non-undefined value the range
validator fails with the non-numeric message exactly when the value
coerces to NaN; a value coercing to any non-NaN number, the infinities
included, proceeds to the bound checks instead. -/
theorem c4_range_nonnumeric_amended (cfg : RuleConfiguration) (v : JsValue)
    (h1 : v ≠ .null) (h2 : v ≠ .undefined) :
    (jsToNumber v = .nan →
      validateRange cfg v = { passed := false, message := some (nonNumericRangeMsg v) }) ∧
    (jsToNumber v ≠ .nan → validateRange cfg v = rangeBounds cfg (jsToNumber v)) := by
  unfold validateRange
  have hv : ¬(v = .undefined ∨ v = .null) := by
    rintro (h | h) <;> [exact h2 h; exact h1 h]
  constructor
  · intro hn
    simp [hv, hn]
  · intro hn
    simp [hv, hn]

/-- Witness for the amended claim C4 at a non-numeric string. -/
theorem c4_range_nonnumeric_amended_witness :
    validateRange {} (.str "abc") =
      { passed := false, message := some (nonNumericRangeMsg (.str "abc")) } :=
  (c4_range_nonnumeric_amended {} (.str "abc") (by decide) (by decide)).1 (by decide)

/-- Claim C5: the min check of the range validator runs before the max
check and a value failing min is reported with the minimum message only,
whatever the max configuration; with min 0, max 150, inclusive, the value
150 passes, 151 fails above maximum, minus one fails below minimum, and
the string abc fails with the non-numeric message. -/
theorem c5_range_min_before_max :
    (∀ (cfg : RuleConfiguration) (n : JNum) m,
      cfg.min = some m →
      (if cfg.inclusive ≠ some false then JNum.lt n m else JNum.le n m) = true →
      rangeBounds cfg n =
        { passed := false,
          message := some ("Value " ++ jnToString n ++ " is below minimum " ++
            (if cfg.inclusive ≠ some false then "" else "exclusive ") ++
            "limit of " ++ jnToString m) }) ∧
    validateRange cfg150 (.num (jint 150)) = { passed := true, message := some "" } ∧
    validateRange cfg150 (.num (jint 151)) =
      { passed := false, message := some "Value 151 is above maximum limit of 150" } ∧
    validateRange cfg150 (.num (jint (-1))) =
      { passed := false, message := some "Value -1 is below minimum limit of 0" } ∧
    validateRange cfg150 (.str "abc") =
      { passed := false, message := some (nonNumericRangeMsg (.str "abc")) } := by
  refine ⟨?_, by decide, by decide, by decide, by decide⟩
  intro cfg n m hmin hfail
  unfold rangeBounds
  cases hmax : cfg.max <;> simp only [hmin, hmax] <;> split_ifs <;> simp_all

/-- Witness for claim C5 at the below-minimum example. -/
theorem c5_range_min_before_max_witness :
    rangeBounds cfg150 (jint (-1)) =
      { passed := false,
        message := some ("Value " ++ jnToString (jint (-1)) ++ " is below minimum " ++
          (if cfg150.inclusive ≠ some false then "" else "exclusive ") ++
          "limit of " ++ jnToString (jint 0)) } :=
  c5_range_min_before_max.1 cfg150 (jint (-1)) (jint 0) (by decide) (by decide)

/-- Claim C6: the completeness validator equals the first-failure scan of
its configured checks in the order required, notEmpty, minLength,
skipping unconfigured checks; for required and notEmpty configured and
the empty-string value it fails with the not-empty message, not the
required message. -/
theorem c6_completeness_order :
    (∀ (cfg : RuleConfiguration) (v : JsValue),
      validateCompleteness cfg v = completenessSpec cfg v) ∧
    validateCompleteness { required := some true, notEmpty := some true } (.str "") =
      { passed := false, message := some "Field must not be empty" } := by
  refine ⟨?_, by decide⟩
  intro cfg v
  rcases Decidable.em (v = .undefined ∨ v = .null) with hv | hv
  · rcases hv with hv | hv <;> subst hv <;>
      unfold validateCompleteness completenessSpec <;>
      cases hreq : cfg.required <;> cases hne : cfg.notEmpty <;> cases hml : cfg.minLength <;>
      simp_all [firstFailure] <;> split_ifs <;> simp_all [firstFailure]
  · have ha : v ≠ .undefined := fun h => hv (Or.inl h)
    have hb : v ≠ .null := fun h => hv (Or.inr h)
    unfold validateCompleteness completenessSpec
    cases hreq : cfg.required <;> cases hne : cfg.notEmpty <;> cases hml : cfg.minLength <;>
      simp_all [firstFailure] <;> split_ifs <;> simp_all [firstFailure]

/-- Claim C7: the legacy evaluator equals the specified selection of
exactly one operator by substring tests in the priority order double
equals, bang equals, greater-equal, less-equal, greater, less, includes,
comparing the dependent value against the right operand, with a
brace-enclosed operand resolved from the record and anything else taken
literally; concrete examples exercise literals, field references and
operator priority. -/
theorem c7_legacy_expression_evaluator :
    (∀ (expr : String) (dependentValue : JsValue) (ds : Dataset),
      evaluateExpression expr dependentValue ds = specLegacyEval expr dependentValue ds) ∧
    evaluateExpression "status == active" (.str "active") [] = true ∧
    evaluateExpression "x >= \x7by\x7d" (.num (jint 7)) [("y", .num (jint 5))] = true ∧
    evaluateExpression "x >= \x7by\x7d" (.num (jint 4)) [("y", .num (jint 5))] = false ∧
    evaluateExpression "a <= 5" (.num (jint 3)) [] = true ∧
    evaluateExpression "a <= 5" (.num (jint 7)) [] = false := by
  refine ⟨?_, by decide, by decide, by decide, by decide, by decide⟩
  intro expr dep ds
  unfold specLegacyEval legacyOperators
  cases h1 : strIncludes expr "==" <;>
  cases h2 : strIncludes expr "!=" <;>
  cases h3 : strIncludes expr ">=" <;>
  cases h4 : strIncludes expr "<=" <;>
  cases h5 : strIncludes expr ">" <;>
  cases h6 : strIncludes expr "<" <;>
  cases h7 : strIncludes expr "includes" <;>
    simp_all [evaluateExpression, applyLegacyOperator, List.find?]

/-- Claim C8, counterexample: a legacy cross-field rule whose condition
evaluates to false produces a failed ValidationResult whose message is
undefined, so the claim that every failed result carries a populated
message for every rule kind including the legacy mode is false. -/
theorem c8_counterexample :
    ValidationEngine.validate envTriv [legacyRuleC8] dsC8 =
      .ok [{ ruleId := "legacy-1", ruleName := "legacy condition", field := "a",
             value := .str "x", severity := "error", message := none, passed := false }] := by
  decide

/-- Claim C8, amended: every failed ValidationResult carries a populated
(defined, non-empty) message for every rule kind except the legacy
cross-field mode, i.e. whenever the rule set contains no legacy
cross-field rule. -/
theorem c8_failure_message_amended (env : JsEnv) (rules : List RuleDefinition)
    (ds : Dataset) (res : List ValidationResult)
    (hok : ValidationEngine.validate env rules ds = .ok res)
    (hnl : ∀ r ∈ rules, notLegacyCrossField r = true) :
    ∀ x ∈ res, x.passed = false → ∃ m, x.message = some m ∧ m ≠ "" :=
  validate_msg env rules ds res hok hnl

/-- Witness for the amended claim C8 at a concrete failing range rule. -/
theorem c8_failure_message_amended_witness :
    ∃ m, resultRange151.message = some m ∧ m ≠ "" :=
  c8_failure_message_amended envTriv [ruleRange151] dsAge151 [resultRange151]
    (by decide) (by decide) resultRange151 (by decide) (by decide)

/-- Claim C9: for every range configuration the empty-string value is not
reported as non-numeric: it coerces to zero and is checked against the
bounds as zero, passing exactly when zero violates neither bound. -/
theorem c9_range_empty_string (cfg : RuleConfiguration) :
    validateRange cfg (.str "") = rangeBounds cfg (jint 0) ∧
    ((validateRange cfg (.str "")).passed = true ↔
      (∀ m, cfg.min = some m →
        (if cfg.inclusive ≠ some false then JNum.lt (jint 0) m else JNum.le (jint 0) m) = false) ∧
      (∀ m, cfg.max = some m →
        (if cfg.inclusive ≠ some false then JNum.lt m (jint 0) else JNum.le m (jint 0)) = false)) := by
  refine ⟨rfl, ?_⟩
  have h : validateRange cfg (.str "") = rangeBounds cfg (jint 0) := rfl
  rw [h]
  exact rangeBounds_passed_iff cfg (jint 0)

/-- Claim C10: the uniqueness validator counts duplicates with strict
equality: it passes exactly when at most one field holds a strictly equal
value; the string five and the number five are loosely but not strictly
equal, and a record holding them in two fields passes for the string
five. -/
theorem c10_uniqueness_strict_equality (ds : Dataset) (v : JsValue)
    (h1 : v ≠ .undefined) (h2 : v ≠ .null) :
    ((validateUniqueness v ds).passed = true ↔
      ((jsObjectKeys ds).filter (fun f => jsStrictEq (lookupField ds f) v)).length ≤ 1) ∧
    jsLooseEq (.str "5") (.num (jint 5)) = true ∧
    jsStrictEq (.str "5") (.num (jint 5)) = false ∧
    validateUniqueness (.str "5") dsMixedFive = { passed := true } := by
  refine ⟨?_, by decide, by decide, by decide⟩
  unfold validateUniqueness
  have hv : ¬(v = .undefined ∨ v = .null) := by rintro (h | h) <;> [exact h1 h; exact h2 h]
  simp only [hv, if_false, if_neg]
  split_ifs with hc <;> simp <;> omega

/-- Witness for claim C10 at the mixed string/number record. -/
theorem c10_uniqueness_strict_equality_witness :
    ((validateUniqueness (.str "5") dsMixedFive).passed = true ↔
      ((jsObjectKeys dsMixedFive).filter
        (fun f => jsStrictEq (lookupField dsMixedFive f) (.str "5"))).length ≤ 1) ∧
    jsLooseEq (.str "5") (.num (jint 5)) = true ∧
    jsStrictEq (.str "5") (.num (jint 5)) = false ∧
    validateUniqueness (.str "5") dsMixedFive = { passed := true } :=
  c10_uniqueness_strict_equality dsMixedFive (.str "5") (by decide) (by decide)
